import Mathlib

/-!
# Verification of the `dataservice` crawling engine core

Shallow embedding, in Lean 4, of the parts of the `dataservice` repository
that the specification's claims are about:

* `src/dataservice/models.py` — `Request.unique_key`, `Request.url_encoded`;
* `src/dataservice/clients.py` — `BaseClient._raise_for_status`;
* `src/dataservice/cache.py` — the `cache_request` decorator;
* `src/dataservice/data.py` — `DataWrapper` / `BaseDataItem` thunk evaluation;
* `src/dataservice/worker.py` — `DataWorker._is_duplicate_request`,
  `DataWorker._handle_request_item`, `DataWorker._wrap_retry` (tenacity
  retry envelope), `DataWorker.fetch` (scheduler loop and its semaphore).

Python dictionaries are embedded as insertion-ordered association lists,
Python scalar values as the inductive `PyVal`, exceptions as explicit
result values, and the asyncio cooperative scheduler as an explicit
interleaving of task steps where every run of code between two `await`
points is one atomic step.
-/

namespace DataService

/-! ## Python values and dict reprs

`Request.params` / `form_data` / `json_data` are Python dicts.  A Python
dict is insertion ordered, so it is embedded as a `List (String × PyVal)`
whose order is the insertion order.  `str(dict)` (used by the f-strings in
`Request.unique_key`) renders entries in that order. -/

/-- A Python scalar value as it appears inside a params / form / json dict,
or as a field of a data item.  `PyVal.none` is Python's `None`. -/
inductive PyVal where
  | none : PyVal
  | str (s : String) : PyVal
  | int (n : Int) : PyVal
  deriving DecidableEq, Repr

/-- A Python dict embedded as an insertion-ordered association list. -/
abbrev PyDict := List (String × PyVal)

/-- Python `repr` of a string literal (single quotes; the inputs the claims
use contain no quotes or escapes). -/
def pyStrRepr (s : String) : String := "'" ++ s ++ "'"

/-- Python `repr`/`str` of one scalar value. -/
def pyValRepr : PyVal → String
  | .none => "None"
  | .str s => pyStrRepr s
  | .int n => toString n

/-- Python `str` of a dict: `\x7b'k': v, ...\x7d` in insertion order. -/
def pyDictRepr (d : PyDict) : String :=
  "\x7b" ++ String.intercalate ", " (d.map fun kv => pyStrRepr kv.1 ++ ": " ++ pyValRepr kv.2) ++ "\x7d"

/-! ## `Request` (src/dataservice/models.py)

Only the data fields that `unique_key` and `url_encoded` read are carried.
The `callback` and `client` capabilities are functions and are passed
separately where the embedded operations need them; `headers`, `cookies`,
`proxy` and `timeout` are never read by the code under verification.
A `None` or empty dict in Python is falsy; both are embedded as `[]`. -/

/-- The data of a `Request` (models.py lines 40-98).  `url` is the string
stored after pydantic's `HttpUrl` validation. -/
structure Request where
  url : String
  method : String := "GET"
  content_type : String := "text"
  params : PyDict := []
  form_data : PyDict := []
  json_data : PyDict := []
  deriving DecidableEq, Repr

/-- `Request.unique_key` (models.py lines 108-118):
`key = f"{self.method} {self.url}"`, then for each of `params`,
`form_data`, `json_data` that is truthy, `key += f" {d}"` with the dict
rendered by Python `str` in insertion order. -/
def Request.unique_key (r : Request) : String :=
  let key := r.method ++ " " ++ r.url
  let key := if r.params.isEmpty then key else key ++ " " ++ pyDictRepr r.params
  let key := if r.form_data.isEmpty then key else key ++ " " ++ pyDictRepr r.form_data
  if r.json_data.isEmpty then key else key ++ " " ++ pyDictRepr r.json_data

/-- `urllib.parse.quote_plus` on the inputs used here: alphanumerics and
`_.-~` pass through, a space becomes `+`, any other ASCII character
becomes `%XX` (uppercase hexre of its code point). -/
def quotePlusChar (c : Char) : String :=
  if c.isAlphanum || c = '_' || c = '.' || c = '-' || c = '~' then String.singleton c
  else if c = ' ' then "+"
  else "%" ++ String.mk ((Nat.toDigits 16 c.toNat).map Char.toUpper)

/-- `urllib.parse.quote_plus` over a whole string. -/
def quotePlus (s : String) : String := String.join (s.toList.map quotePlusChar)

/-- The string `urlencode` renders for one value (`str` of the value,
quoted; a string value is quoted directly). -/
def urlencodeVal : PyVal → String
  | .none => quotePlus "None"
  | .str s => quotePlus s
  | .int n => quotePlus (toString n)

/-- `urllib.parse.urlencode(params)`: `k=v` pairs joined by `&` in
insertion order. -/
def urlencode (d : PyDict) : String :=
  String.intercalate "&" (d.map fun kv => quotePlus kv.1 ++ "=" ++ urlencodeVal kv.2)

/-- Python `c in s` for a single character `c`. -/
def strContainsChar (s : String) (c : Char) : Bool := s.data.contains c

/-- Python `s.endswith("/")`: the last character is `/`. -/
def strEndsWithSlash (s : String) : Bool := s.data.getLast? == some '/'

/-- Python `s[:-1]`: drop the last character. -/
def strDropLast (s : String) : String := String.mk s.data.dropLast

/-- `Request.url_encoded` (models.py lines 120-129):
if `"?" in url or not self.params`, return the url unchanged (the final
`HttpUrl(...)` re-validation of an already-validated url string is the
identity); else drop one trailing `/` and append `?` plus the urlencoded
params. -/
def Request.url_encoded (r : Request) : String :=
  if strContainsChar r.url '?' || r.params.isEmpty then r.url
  else
    (if strEndsWithSlash r.url then strDropLast r.url else r.url) ++ "?" ++ urlencode r.params

/-! ## `BaseClient._raise_for_status` (src/dataservice/clients.py lines 69-83) -/

/-- The observable outcome of `BaseClient._raise_for_status`. -/
inductive StatusOutcome where
  | ok : StatusOutcome
  | retryable (status_code : Nat) : StatusOutcome
  | nonRetryable (status_code : Nat) : StatusOutcome
  deriving DecidableEq, Repr

/-- `BaseClient._raise_for_status(status_code, status_text)`:
return normally on 200; raise `RetryableException` on 5xx, 429 and 403;
raise `NonRetryableException` otherwise. -/
def raise_for_status (status_code : Nat) : StatusOutcome :=
  if status_code = 200 then .ok
  else if (500 ≤ status_code ∧ status_code < 600) ∨ status_code = 429 ∨ status_code = 403 then
    .retryable status_code
  else .nonRetryable status_code

/-! ## `Response` and the `cache_request` decorator (src/dataservice/cache.py)

The in-memory cache state of `AsyncCache` is its `cache` dict mapping a
request's `unique_key` to the stored `(text, data)` pair.  `cache_request`
is sequentialised: inside one worker task there is no interleaving between
the membership test, the `get` and the `set` that matters to the claims,
and the scheduler runs each unique request in exactly one task. -/

/-- The data of a `Response` (models.py lines 132-152).  `data` is the
parsed JSON payload or Python `None`. -/
structure Response where
  request : Request
  url : String
  status_code : Nat := 200
  text : String := ""
  data : Option PyDict := Option.none
  deriving DecidableEq, Repr

/-- A stored cache entry: the `(response.text, response.data)` pair. -/
abbrev CacheEntry := String × Option PyDict

/-- The in-memory dict of an `AsyncCache`. -/
abbrev CacheState := List (String × CacheEntry)

/-- What one call of the function wrapped by `cache_request` produces:
the returned response, the cache state after the call, and how many times
`request.client` was invoked during the call. -/
structure CacheCallResult where
  response : Response
  cache : CacheState
  clientCalls : Nat
  deriving DecidableEq, Repr

/-- `cache_request(cache)` applied to a request (cache.py lines 185-220):
`key = request.unique_key`; on a hit, unpack the stored `(text, data)` and
return `Response(request=request, text=text, data=data,
url=request.url_encoded)` without touching the client; on a miss, call
`request.client(request)`, store `(response.text, response.data)` under
`key`, and return the live response.  The optional `delay` only sleeps and
is dropped here. -/
def cache_request (cache : CacheState) (client : Request → Response)
    (request : Request) : CacheCallResult :=
  let key := request.unique_key
  match cache.lookup key with
  | some (text, data) =>
      { response := { request := request, url := request.url_encoded,
                      text := text, data := data }
        cache := cache
        clientCalls := 0 }
  | Option.none =>
      let response := client request
      { response := response
        cache := cache ++ [(key, (response.text, response.data))]
        clientCalls := 1 }

/-! ## `DataWrapper` and `BaseDataItem` (src/dataservice/data.py)

A value supplied for a field is either an immediate value or a
zero-argument callable (thunk).  A thunk is embedded by the outcome of its
single evaluation: `Except.ok v` when `value()` returns `v`, and
`Except.error e` when it raises `e`. -/

/-- A raised Python exception, by type name and message. -/
structure PyExc where
  type : String
  message : String
  deriving DecidableEq, Repr

deriving instance DecidableEq for Except

/-- A value passed to `DataWrapper` for one field. -/
inductive DWValue where
  | imm (v : PyVal) : DWValue
  | thunk (t : Except PyExc PyVal) : DWValue
  deriving DecidableEq, Repr

/-- An entry of the `errors` dict: `\x7b"type": ..., "message": ...\x7d`. -/
structure DataError where
  type : String
  message : String
  deriving DecidableEq, Repr

/-- `DataWrapper.maybe(value)` (data.py lines 64-86): for a callable,
`(value(), None)` or `(None, e)`; for anything else `(value, None)`. -/
def DataWrapper.maybe : DWValue → PyVal × Option PyExc
  | .imm v => (v, Option.none)
  | .thunk (.ok v) => (v, Option.none)
  | .thunk (.error e) => (PyVal.none, some e)

/-- The value `DataWrapper._set_item` stores for one field (data.py lines
52-62): the first component of `maybe`, i.e. the thunk's result or `None`
when it raised. -/
def DataWrapper.setItemValue (v : DWValue) : PyVal := (DataWrapper.maybe v).1

/-- The `errors` entry `DataWrapper._set_item` records for one field, if
its thunk raised. -/
def DataWrapper.setItemError (v : DWValue) : Option DataError :=
  (DataWrapper.maybe v).2.map fun e => ⟨e.type, e.message⟩

/-- Is this field value a callable?  Its thunk is forced exactly when this
holds. -/
def DWValue.isThunk : DWValue → Bool
  | .imm _ => false
  | .thunk _ => true

/-- `DataWrapper.__init__(mapping)` (data.py lines 29-41, with no kwargs):
the loop `for key, value in mapping.items(): mapping[key] =
self._set_item(key, value)` replaces every value in the caller's dict by
`_set_item`'s result and accumulates `errors` in iteration order; the
wrapper's own dict contents then equal the mutated mapping. -/
def DataWrapper.init (mapping : List (String × DWValue)) :
    List (String × PyVal) × List (String × DataError) :=
  (mapping.map fun kv => (kv.1, DataWrapper.setItemValue kv.2),
   mapping.filterMap fun kv => (DataWrapper.setItemError kv.2).map fun e => (kv.1, e))

/-- The keys whose thunks are forced during `DataWrapper.__init__`, in
evaluation order: exactly the callable-valued entries, once each. -/
def DataWrapper.evalTrace (mapping : List (String × DWValue)) : List String :=
  mapping.filterMap fun kv => if kv.2.isThunk then some kv.1 else Option.none

/-- `BaseDataItem._run_callables` (data.py lines 111-116): wrap the data in
a `DataWrapper`; the resulting model fields are the wrapped dict plus the
collected `errors`. -/
def BaseDataItem.runCallables (data : List (String × DWValue)) :
    List (String × PyVal) × List (String × DataError) :=
  DataWrapper.init data

/-! ## The retry envelope `DataWorker._wrap_retry` (src/dataservice/worker.py lines 246-283)

`_wrap_retry` builds a tenacity `AsyncRetrying` with `reraise=True`,
`stop=stop_after_attempt(retry.max_attempts)`,
`wait=wait_exponential(multiplier=retry.wait_exp_mul, min=retry.wait_exp_min,
max=retry.wait_exp_max)` and `retry=retry_if_exception_type(RetryableException)`,
and runs `_make_request` through it.  Tenacity's semantics, embedded here:
attempt 1 always runs; after a failed attempt `n` the loop re-raises the
exception if it is not a `RetryableException` or if `n ≥ max_attempts`
(`stop_after_attempt`), and otherwise sleeps
`max(max(0, min), min(multiplier * 2 ** (n - 1), max))` seconds
(`wait_exponential.__call__` with `attempt_number = n`, `exp_base = 2`)
and runs attempt `n + 1`.  The underlying call (`client(request)`, possibly
through the cache) is embedded as an oracle from the attempt number to its
outcome. -/

/-- The `retry` section of `ServiceConfig` (src/dataservice/config.py lines
16-22); every field is a non-negative int. -/
structure RetryConfig where
  max_attempts : Nat := 3
  wait_exp_max : Nat := 10
  wait_exp_min : Nat := 4
  wait_exp_mul : Nat := 1
  deriving DecidableEq, Repr

/-- An exception raised by one fetch attempt; `retryable` is
`isinstance(e, RetryableException)`. -/
structure WorkerExc where
  retryable : Bool
  exc : PyExc
  deriving DecidableEq, Repr

/-- The outcome of one fetch attempt. -/
inductive FetchOutcome where
  | ok (r : Response) : FetchOutcome
  | raise (e : WorkerExc) : FetchOutcome
  deriving DecidableEq, Repr

/-- `wait_exponential.__call__` after failed attempt `n`:
`max(max(0, min), min(multiplier * 2 ** (n - 1), max))`. -/
def waitExp (cfg : RetryConfig) (n : Nat) : Nat :=
  max (max 0 cfg.wait_exp_min) (min (cfg.wait_exp_mul * 2 ^ (n - 1)) cfg.wait_exp_max)

/-- What one run of the retry envelope did: how many times the wrapped
call was invoked, the sleeps inserted between consecutive attempts (in
order), and the final outcome (`raise` = the exception propagated to the
caller). -/
structure RetryTrace where
  calls : Nat
  delays : List Nat
  result : FetchOutcome
  deriving Repr

/-- The retry loop from attempt `n` on.  `fuel` bounds the recursion and is
chosen large enough (`max_attempts`) that the `0` branch is never taken
from `wrap_retry`. -/
def retryFrom (cfg : RetryConfig) (client : Nat → FetchOutcome) : Nat → Nat → RetryTrace
  | n, fuel =>
    match client n with
    | .ok r => { calls := 1, delays := [], result := .ok r }
    | .raise e =>
      if e.retryable = false then { calls := 1, delays := [], result := .raise e }
      else if cfg.max_attempts ≤ n then { calls := 1, delays := [], result := .raise e }
      else
        match fuel with
        | 0 => { calls := 1, delays := [], result := .raise e }
        | fuel' + 1 =>
          let rest := retryFrom cfg client (n + 1) fuel'
          { calls := rest.calls + 1
            delays := waitExp cfg n :: rest.delays
            result := rest.result }

/-- `DataWorker._wrap_retry`: run the retry loop from attempt 1. -/
def wrap_retry (cfg : RetryConfig) (client : Nat → FetchOutcome) : RetryTrace :=
  retryFrom cfg client 1 cfg.max_attempts

/-! ## The scheduler, dedup set and semaphore (src/dataservice/worker.py)

The asyncio scheduler is cooperative: code between two `await` points runs
without interleaving.  A worker task (one `_handle_request_item` call,
lines 180-208) is embedded as a little state machine:

* `ready → admitted/skipped`: the call of `_is_duplicate_request` (lines
  158-169).  The membership test `key in self._seen_requests` and the
  insertion `self._seen_requests.add(key)` contain no `await`, so they are
  a single atomic step.
* `admitted → fetching`: the task enters `_handle_request`/`_wrap_retry`;
  the whole retry run of its client happens in this phase and is recorded
  in `fetchLog` as `(key, number of client calls)`.
* `fetching → done`: the fetch returns (callback and enqueue follow).

`DataWorker.fetch` (lines 318-333) creates
`semaphore = asyncio.Semaphore(config.max_concurrency)` and acquires it
once, with `async with semaphore:`, around the whole scheduling loop; the
tasks it spawns never touch it.  `semFree` mirrors that: it starts at
`max_concurrency - 1` (the scheduler's single acquisition) and no task
step modifies it. -/

/-- The configuration fields of `ServiceConfig` the scheduler model reads
(src/dataservice/config.py lines 97-118). -/
structure WorkerConfig where
  retry : RetryConfig := {}
  deduplication : Bool := true
  max_concurrency : Nat := 10
  deriving Repr

/-- One worker task: the dedup key of the request it handles and the
request's client, as an oracle from the attempt number to the outcome. -/
structure WorkerTask where
  key : String
  client : Nat → FetchOutcome

/-- The phase a worker task is in. -/
inductive TaskPhase where
  | ready : TaskPhase
  | admitted : TaskPhase
  | fetching : TaskPhase
  | done : TaskPhase
  | skipped : TaskPhase
  deriving DecidableEq, Repr

/-- The shared state of `DataWorker` plus the per-task phases.  Task
indices range over all of `Nat`; unscheduled indices stay `ready`. -/
structure SchedState where
  phase : Nat → TaskPhase
  seen : List String
  fetchLog : List (String × Nat)
  semFree : Nat

/-- The initial state of a run: every task is before its dedup check, the
seen set is empty, and the scheduler coroutine holds one semaphore slot. -/
def initState (cfg : WorkerConfig) : SchedState :=
  { phase := fun _ => .ready
    seen := []
    fetchLog := []
    semFree := cfg.max_concurrency - 1 }

/-- One scheduling step: run task `i` up to its next `await` point. -/
def schedStep (cfg : WorkerConfig) (tasks : Nat → WorkerTask) (s : SchedState)
    (i : Nat) : SchedState :=
  match s.phase i with
  | .ready =>
    if cfg.deduplication && decide ((tasks i).key ∈ s.seen) then
      { s with phase := fun j => if j = i then .skipped else s.phase j }
    else
      { s with
        phase := fun j => if j = i then .admitted else s.phase j
        seen := if cfg.deduplication then (tasks i).key :: s.seen else s.seen }
  | .admitted =>
    { s with
      phase := fun j => if j = i then .fetching else s.phase j
      fetchLog := s.fetchLog ++ [((tasks i).key, (wrap_retry cfg.retry (tasks i).client).calls)] }
  | .fetching =>
    { s with phase := fun j => if j = i then .done else s.phase j }
  | .done => s
  | .skipped => s

/-- Run a whole schedule (an arbitrary interleaving of task steps). -/
def schedRun (cfg : WorkerConfig) (tasks : Nat → WorkerTask) (sched : List Nat) : SchedState :=
  sched.foldl (schedStep cfg tasks) (initState cfg)

/-- How many of the tasks `0 .. n-1` have a client fetch in flight. -/
def inFlight (s : SchedState) (n : Nat) : Nat :=
  (List.range n).countP fun i => s.phase i = .fetching

/-- Total number of client invocations performed for dedup key `k` during
a run. -/
def totalClientCalls (s : SchedState) (k : String) : Nat :=
  ((s.fetchLog.filter fun p => p.1 = k).map Prod.snd).sum

/-- Modelled from the spec: the key used by
`DataWorker._is_duplicate_request` is
`request.model_dump_json(include=self.config.deduplication_keys)`, and the
`deduplication_keys` field of `ServiceConfig` is not part of the sources
under src/; the spec states the canonical unique_key is "used as the dedup
key", so the dedup key of a request is modelled as its `unique_key`. -/
def dedupKey (r : Request) : String := r.unique_key

/-- The worker task handling a given request. -/
def taskOfRequest (r : Request) (client : Nat → FetchOutcome) : WorkerTask :=
  { key := dedupKey r, client := client }

/-- A fixed successful response, used by the concrete runs below. -/
def okResponse : Response :=
  { request := { url := "http://example.com/" }, url := "http://example.com/" }

/-- A task has passed the dedup check (it is at or beyond line 188 of
`_handle_request_item`). -/
def inA (p : TaskPhase) : Prop := p = .admitted ∨ p = .fetching ∨ p = .done

/-- A task has entered the fetch (it is at or beyond `_handle_request`). -/
def inF (p : TaskPhase) : Prop := p = .fetching ∨ p = .done

/-- The run invariant of the scheduler model with deduplication enabled:
every task past the dedup check has its key in the seen set; no two live
tasks past the check share a key; the fetch log carries pairwise distinct
keys; every logged key is owned by a task that entered the fetch; and
every logged call count is the retry envelope's count for that task. -/
structure SchedInv (cfg : WorkerConfig) (tasks : Nat → WorkerTask) (s : SchedState) : Prop where
  seen_mem : ∀ i, inA (s.phase i) → (tasks i).key ∈ s.seen
  key_uniq : ∀ i j, i ≠ j → inA (s.phase i) → inA (s.phase j) →
    (tasks i).key ≠ (tasks j).key
  log_nodup : (s.fetchLog.map Prod.fst).Nodup
  log_witness : ∀ k, k ∈ s.fetchLog.map Prod.fst →
    ∃ i, (tasks i).key = k ∧ inF (s.phase i)
  log_calls : ∀ p ∈ s.fetchLog,
    ∃ i, p = ((tasks i).key, (wrap_retry cfg.retry (tasks i).client).calls)

/-! ## The fingerprint format prescribed by the spec

The spec prescribes
`"{METHOD} {url_encoded_with_sorted_params}[ params={params}][ form_data={form_data}][ json_data={json_data}]"`
with the inner maps serialized with sorted keys.  The following definitions
follow the spec's words (not the source), to be compared with
`Request.unique_key`. -/

/-- Lexicographic comparison of char lists, as a boolean. -/
def charsLe : List Char → List Char → Bool
  | [], _ => true
  | _ :: _, [] => false
  | c :: cs, d :: ds => if c < d then true else if d < c then false else charsLe cs ds

/-- String comparison used for key sorting. -/
def strLe (a b : String) : Bool := charsLe a.data b.data

/-- Insert one entry into a key-sorted dict. -/
def sortInsert (kv : String × PyVal) : PyDict → PyDict
  | [] => [kv]
  | kv' :: rest => if strLe kv.1 kv'.1 then kv :: kv' :: rest else kv' :: sortInsert kv rest

/-- Sort a dict by key. -/
def sortByKey (d : PyDict) : PyDict := d.foldr sortInsert []

/-- The fingerprint the spec's words prescribe: method, then the url with
the query params sorted and appended, then labelled `params=`,
`form_data=`, `json_data=` sections rendered with sorted keys. -/
def specUniqueKey (r : Request) : String :=
  let ps := sortByKey r.params
  r.method ++ " " ++ Request.url_encoded { r with params := ps }
    ++ (if ps.isEmpty then "" else " params=" ++ pyDictRepr ps)
    ++ (if r.form_data.isEmpty then "" else " form_data=" ++ pyDictRepr (sortByKey r.form_data))
    ++ (if r.json_data.isEmpty then "" else " json_data=" ++ pyDictRepr (sortByKey r.json_data))

/-! ## Helper lemmas -/

theorem str_append_left_cancel {a b c : String} (h : a ++ b = a ++ c) : b = c := by
  have h2 : (a ++ b).data = (a ++ c).data := by rw [h]
  rw [String.data_append, String.data_append] at h2
  exact String.ext (List.append_cancel_left h2)

theorem str_append_right_cancel {a b c : String} (h : a ++ c = b ++ c) : a = b := by
  have h2 : (a ++ c).data = (b ++ c).data := by rw [h]
  rw [String.data_append, String.data_append] at h2
  exact String.ext (List.append_cancel_right h2)

theorem lookup_map_value {α β : Type} (l : List (String × α)) (f : α → β) (k : String) :
    (l.map fun kv => (kv.1, f kv.2)).lookup k = (l.lookup k).map f := by
  induction l with
  | nil => rfl
  | cons kv rest ih =>
      simp only [List.map_cons, List.lookup]
      by_cases h : k == kv.1 <;> simp [h, ih]

theorem lookup_filterMap_not_mem {α β : Type} (l : List (String × α)) (f : α → Option β)
    (k : String) (h : k ∉ l.map Prod.fst) :
    (l.filterMap fun kv => (f kv.2).map fun b => (kv.1, b)).lookup k = Option.none := by
  induction l with
  | nil => rfl
  | cons kv rest ih =>
      simp only [List.map_cons, List.mem_cons, not_or] at h
      simp only [List.filterMap_cons]
      cases hf : f kv.2 with
      | none => exact ih h.2
      | some b =>
          simp only [Option.map_some', List.lookup]
          have : (k == kv.1) = false := by
            simp only [beq_eq_false_iff_ne, ne_eq]
            exact h.1
          simp [this, ih h.2]

theorem lookup_filterMap_pair {α β : Type} (l : List (String × α)) (f : α → Option β)
    (k : String) (h : (l.map Prod.fst).Nodup) :
    (l.filterMap fun kv => (f kv.2).map fun b => (kv.1, b)).lookup k = (l.lookup k).bind f := by
  induction l with
  | nil => rfl
  | cons kv rest ih =>
      simp only [List.map_cons, List.nodup_cons] at h
      simp only [List.filterMap_cons, List.lookup]
      by_cases hk : k == kv.1
      · have hkk : k = kv.1 := by simpa using hk
        cases hf : f kv.2 with
        | none =>
            simp only [hk, Option.some_bind, hf]
            rw [hkk]
            exact lookup_filterMap_not_mem rest f kv.1 h.1
        | some b => simp [List.lookup, hk, hf]
      · cases hf : f kv.2 with
        | none => simp only [hk, Option.some_bind] at *; simpa [hk] using ih h.2
        | some b => simp only [List.lookup, hk]; simpa [hk] using ih h.2

theorem count_filterMap_not_mem {α : Type} (l : List (String × α)) (p : α → Bool)
    (k : String) (h : k ∉ l.map Prod.fst) :
    (l.filterMap fun kv => if p kv.2 then some kv.1 else Option.none).count k = 0 := by
  rw [List.count_eq_zero]
  intro hmem
  rcases List.mem_filterMap.1 hmem with ⟨kv, hkv, hif⟩
  by_cases hp : p kv.2
  · simp only [hp, if_true, Option.some.injEq] at hif
    exact h (hif ▸ List.mem_map.2 ⟨kv, hkv, rfl⟩)
  · simp [hp] at hif

theorem count_filterMap_key {α : Type} (l : List (String × α)) (p : α → Bool)
    (k : String) (h : (l.map Prod.fst).Nodup) :
    (l.filterMap fun kv => if p kv.2 then some kv.1 else Option.none).count k =
      match l.lookup k with
      | some v => if p v then 1 else 0
      | Option.none => 0 := by
  induction l with
  | nil => rfl
  | cons kv rest ih =>
      simp only [List.map_cons, List.nodup_cons] at h
      simp only [List.filterMap_cons, List.lookup]
      by_cases hk : k == kv.1
      · have hkk : k = kv.1 := by simpa using hk
        by_cases hp : p kv.2
        · simp only [hp, if_true, hk]
          subst hkk
          rw [List.count_cons_self, count_filterMap_not_mem rest p kv.1 h.1]
        · simp only [hp, if_false, hk]
          rw [hkk]
          exact count_filterMap_not_mem rest p kv.1 h.1
      · by_cases hp : p kv.2
        · simp only [hp, if_true, hk]
          rw [List.count_cons_of_ne (by simpa using hk)]
          exact ih h.2
        · simp only [hp, if_false, hk]
          exact ih h.2

/-! ## Claim C8 -/

/-- Claim C8: for every status_code other than exactly 200,
`BaseClient._raise_for_status` raises: `RetryableException` when
`500 ≤ status_code < 600` or the code is 429 or 403, and
`NonRetryableException` for every other code — including success codes
such as 201 or 204 and the whole 3xx redirect range; only 200 returns
normally. -/
theorem raise_for_status_classification :
    raise_for_status 200 = .ok ∧
    (∀ s : Nat, s ≠ 200 → raise_for_status s ≠ .ok) ∧
    (∀ s : Nat, (500 ≤ s ∧ s < 600) ∨ s = 429 ∨ s = 403 →
      raise_for_status s = .retryable s) ∧
    (∀ s : Nat, s ≠ 200 → ¬((500 ≤ s ∧ s < 600) ∨ s = 429 ∨ s = 403) →
      raise_for_status s = .nonRetryable s) ∧
    raise_for_status 201 = .nonRetryable 201 ∧
    raise_for_status 204 = .nonRetryable 204 ∧
    (∀ s : Nat, 300 ≤ s → s < 400 → raise_for_status s = .nonRetryable s) := by
  refine ⟨rfl, ?_, ?_, ?_, by decide, by decide, ?_⟩
  · intro s hs
    unfold raise_for_status
    rw [if_neg hs]
    split_ifs <;> simp
  · intro s hs
    have hne : s ≠ 200 := by rcases hs with ⟨h5, h6⟩ | h | h <;> omega
    unfold raise_for_status
    rw [if_neg hne, if_pos hs]
  · intro s hne hs
    unfold raise_for_status
    rw [if_neg hne, if_neg hs]
  · intro s h3 h4
    have hne : s ≠ 200 := by omega
    have hs : ¬((500 ≤ s ∧ s < 600) ∨ s = 429 ∨ s = 403) := by omega
    unfold raise_for_status
    rw [if_neg hne, if_neg hs]

/-- Witness for C8 at concrete status codes. -/
theorem raise_for_status_classification_witness :
    raise_for_status 503 = .retryable 503 ∧
    raise_for_status 429 = .retryable 429 ∧
    raise_for_status 301 = .nonRetryable 301 ∧
    raise_for_status 404 ≠ .ok :=
  ⟨raise_for_status_classification.2.2.1 503 (by omega),
   raise_for_status_classification.2.2.1 429 (by omega),
   raise_for_status_classification.2.2.2.2.2.2 301 (by omega) (by omega),
   raise_for_status_classification.2.1 404 (by omega)⟩

/-! ## Claim C10 -/

/-- Claim C10: for every Request whose url contains a `?`, `url_encoded` returns
the url unchanged and the params are never appended; for every Request
whose url contains no `?` and whose params are non-empty, one trailing `/`
is removed and `?` plus the urlencoded params is appended. -/
theorem url_encoded_branches (r : Request) :
    (strContainsChar r.url '?' = true → r.url_encoded = r.url) ∧
    (strContainsChar r.url '?' = false → r.params ≠ [] →
      r.url_encoded =
        (if strEndsWithSlash r.url then strDropLast r.url else r.url)
          ++ "?" ++ urlencode r.params) := by
  constructor
  · intro h
    unfold Request.url_encoded
    simp [h]
  · intro h hp
    unfold Request.url_encoded
    simp [h, hp]

/-- Witness for C10: a url that already carries a query is returned
unchanged, params ignored; a clean url gets its trailing slash removed and
the encoded params appended. -/
theorem url_encoded_branches_witness :
    Request.url_encoded { url := "http://example.com/?x=0", params := [("a", .int 1)] }
      = "http://example.com/?x=0" ∧
    Request.url_encoded { url := "http://example.com/", params := [("a", .int 1), ("b", .str "c d")] }
      = "http://example.com?a=1&b=c+d" := by
  constructor
  · exact (url_encoded_branches _).1 (by decide)
  · have h := (url_encoded_branches
      { url := "http://example.com/", params := [("a", .int 1), ("b", .str "c d")] }).2
      (by decide) (by decide)
    rw [h]
    decide

/-! ## Claim C6 -/

/-- Claim C6: with the cache enabled, a request whose `unique_key` is in the
cache gets a Response synthesised from the stored `(text, data)` with the
request's own `url_encoded` as url, and the client is not invoked; a
request whose key is absent causes exactly one client call, the store of
`(response.text, response.data)` under the key, and the live response to
be returned. -/
theorem cache_request_spec (cache : CacheState) (client : Request → Response) (r : Request) :
    (∀ text data, cache.lookup r.unique_key = some (text, data) →
      cache_request cache client r =
        { response := { request := r, url := r.url_encoded, text := text, data := data }
          cache := cache
          clientCalls := 0 }) ∧
    (cache.lookup r.unique_key = Option.none →
      cache_request cache client r =
        { response := client r
          cache := cache ++ [(r.unique_key, ((client r).text, (client r).data))]
          clientCalls := 1 }) := by
  constructor
  · intro text data h
    simp only [cache_request, h]
  · intro h
    simp only [cache_request, h]

/-- Witness for C6: one concrete hit (client not called, stored pair used,
url is the request's `url_encoded`) and one concrete miss (client called
once, pair stored). -/
theorem cache_request_spec_witness :
    cache_request [("GET http://x.io/a", ("ok", Option.none))]
        (fun req => { request := req, url := req.url, text := "live", data := Option.none })
        { url := "http://x.io/a" } =
      { response := { request := { url := "http://x.io/a" }, url := "http://x.io/a",
                      text := "ok", data := Option.none }
        cache := [("GET http://x.io/a", ("ok", Option.none))]
        clientCalls := 0 } ∧
    cache_request []
        (fun req => { request := req, url := req.url, text := "live", data := Option.none })
        { url := "http://x.io/a" } =
      { response := { request := { url := "http://x.io/a" }, url := "http://x.io/a",
                      text := "live", data := Option.none }
        cache := [("GET http://x.io/a", ("live", Option.none))]
        clientCalls := 1 } := by
  constructor
  · have h := (cache_request_spec [("GET http://x.io/a", ("ok", Option.none))]
      (fun req => { request := req, url := req.url, text := "live", data := Option.none })
      { url := "http://x.io/a" }).1 "ok" Option.none (by decide)
    rw [h]
    decide
  · have h := (cache_request_spec []
      (fun req => { request := req, url := req.url, text := "live", data := Option.none })
      { url := "http://x.io/a" }).2 (by decide)
    rw [h]
    decide

/-! ## Claim C9 -/

/-- Claim C9: `DataWrapper.__init__(mapping)` mutates the caller's mapping in
place: after construction the mapping has the same keys, and every entry
whose value was a callable holds the thunk's result (or `None` when it
raised) instead of the callable. -/
theorem datawrapper_mutates_mapping (mapping : List (String × DWValue)) :
    ((DataWrapper.init mapping).1.map Prod.fst = mapping.map Prod.fst) ∧
    (∀ k t, mapping.lookup k = some (.thunk t) →
      (DataWrapper.init mapping).1.lookup k =
        some (match t with | .ok v => v | .error _ => PyVal.none)) := by
  constructor
  · unfold DataWrapper.init
    simp
  · intro k t h
    unfold DataWrapper.init
    rw [lookup_map_value, h]
    cases t <;> rfl

/-- Witness for C9: a successful thunk is replaced by its result, a
raising thunk by `None`. -/
theorem datawrapper_mutates_mapping_witness :
    (DataWrapper.init
        [("a", .thunk (.ok (.int 7))), ("b", .thunk (.error ⟨"ValueError", "boom"⟩))]).1.lookup "a"
      = some (.int 7) ∧
    (DataWrapper.init
        [("a", .thunk (.ok (.int 7))), ("b", .thunk (.error ⟨"ValueError", "boom"⟩))]).1.lookup "b"
      = some PyVal.none :=
  ⟨(datawrapper_mutates_mapping _).2 "a" (.ok (.int 7)) (by decide),
   (datawrapper_mutates_mapping _).2 "b" (.error ⟨"ValueError", "boom"⟩) (by decide)⟩

/-! ## Claim C5 -/

/-- Counterexample to C5: `Request.unique_key` does not sort the params
and does not use the spec's labelled format.  Two requests that differ
only in the insertion order of their params have different unique_keys,
and the key differs from the spec's canonical string. -/
theorem unique_key_counterexample :
    Request.unique_key { url := "http://example.com/", params := [("a", .int 1), ("b", .int 2)] }
      ≠ Request.unique_key { url := "http://example.com/", params := [("b", .int 2), ("a", .int 1)] }
    ∧ Request.unique_key { url := "http://example.com/", params := [("a", .int 1), ("b", .int 2)] }
      = "GET http://example.com/ \x7b'a': 1, 'b': 2\x7d"
    ∧ Request.unique_key { url := "http://example.com/", params := [("a", .int 1), ("b", .int 2)] }
      ≠ specUniqueKey { url := "http://example.com/", params := [("a", .int 1), ("b", .int 2)] } := by
  refine ⟨by decide, by decide, by decide⟩

/-- Claim C5 amended: `unique_key` is `"{method} {url}"` followed, for each of
params, form_data, json_data that is non-empty, by a space and that dict's
Python repr in insertion order; the url is used as stored (no params
merged in, nothing sorted), and consequently the key distinguishes two
requests that agree everywhere except in the rendering (e.g. insertion
order) of their params. -/
theorem unique_key_characterization :
    (∀ r : Request, r.unique_key =
      r.method ++ " " ++ r.url
        ++ (if r.params.isEmpty then "" else " " ++ pyDictRepr r.params)
        ++ (if r.form_data.isEmpty then "" else " " ++ pyDictRepr r.form_data)
        ++ (if r.json_data.isEmpty then "" else " " ++ pyDictRepr r.json_data)) ∧
    (∀ method url ct p₁ p₂ fd jd, pyDictRepr p₁ ≠ pyDictRepr p₂ →
      p₁.isEmpty = false → p₂.isEmpty = false →
      Request.unique_key ⟨url, method, ct, p₁, fd, jd⟩ ≠
        Request.unique_key ⟨url, method, ct, p₂, fd, jd⟩) := by
  have hchar : ∀ r : Request, r.unique_key =
      r.method ++ " " ++ r.url
        ++ (if r.params.isEmpty then "" else " " ++ pyDictRepr r.params)
        ++ (if r.form_data.isEmpty then "" else " " ++ pyDictRepr r.form_data)
        ++ (if r.json_data.isEmpty then "" else " " ++ pyDictRepr r.json_data) := by
    intro r
    unfold Request.unique_key
    apply String.ext
    split_ifs <;>
      simp [String.data_append, List.append_assoc]
  refine ⟨hchar, ?_⟩
  intro method url ct p₁ p₂ fd jd hrepr hp₁ hp₂ heq
  rw [hchar ⟨url, method, ct, p₁, fd, jd⟩, hchar ⟨url, method, ct, p₂, fd, jd⟩] at heq
  simp only [hp₁, hp₂] at heq
  have h1 := str_append_right_cancel (str_append_right_cancel heq)
  have h2 := str_append_left_cancel (str_append_left_cancel h1)
  exact hrepr h2

/-- Witness for C5 amended: order sensitivity at a concrete pair of
requests. -/
theorem unique_key_characterization_witness :
    Request.unique_key ⟨"http://example.com/", "GET", "text", [("a", .int 1), ("b", .int 2)], [], []⟩
      ≠ Request.unique_key ⟨"http://example.com/", "GET", "text", [("b", .int 2), ("a", .int 1)], [], []⟩ :=
  unique_key_characterization.2 "GET" "http://example.com/" "text"
    [("a", .int 1), ("b", .int 2)] [("b", .int 2), ("a", .int 1)] [] []
    (by decide) (by decide) (by decide)

/-! ## Claim C7 -/

/-- Counterexample to C7: after construction with a raising thunk on field
`b`, `b` is not absent from the mapping-style item: it is present and
bound to `None`. -/
theorem datawrapper_bottom_counterexample :
    (DataWrapper.init
        [("a", .imm (.int 1)),
         ("b", .thunk (.error ⟨"ZeroDivisionError", "division by zero"⟩))]).1
      = [("a", .int 1), ("b", PyVal.none)] ∧
    "b" ∈ (DataWrapper.init
        [("a", .imm (.int 1)),
         ("b", .thunk (.error ⟨"ZeroDivisionError", "division by zero"⟩))]).1.map Prod.fst ∧
    (DataWrapper.init
        [("a", .imm (.int 1)),
         ("b", .thunk (.error ⟨"ZeroDivisionError", "division by zero"⟩))]).2
      = [("b", ⟨"ZeroDivisionError", "division by zero"⟩)] := by
  refine ⟨by decide, by decide, by decide⟩

/-- Claim C7 amended: each thunk is evaluated exactly once during construction;
a field whose thunk raises `e` gets `errors[F] = (type name of e, str(e))`
and is bound to `None` (the key stays present in mapping-style items); a
field whose thunk returns behaves exactly as if its value were immediate;
and the outputs at a field depend only on that field's own entry, so a
failing thunk leaves all other fields unaffected. -/
theorem datawrapper_field_semantics :
    (∀ (mapping : List (String × DWValue)) k e,
      mapping.lookup k = some (.thunk (.error e)) →
      (DataWrapper.init mapping).1.lookup k = some PyVal.none) ∧
    (∀ (mapping : List (String × DWValue)) k e, (mapping.map Prod.fst).Nodup →
      mapping.lookup k = some (.thunk (.error e)) →
      (DataWrapper.init mapping).2.lookup k = some ⟨e.type, e.message⟩) ∧
    (∀ (mapping : List (String × DWValue)) k v,
      mapping.lookup k = some (.thunk (.ok v)) →
      (DataWrapper.init mapping).1.lookup k = some v) ∧
    (∀ (mapping : List (String × DWValue)) k v,
      mapping.lookup k = some (.imm v) →
      (DataWrapper.init mapping).1.lookup k = some v) ∧
    (∀ (mapping : List (String × DWValue)) k v, (mapping.map Prod.fst).Nodup →
      (mapping.lookup k = some (.thunk (.ok v)) ∨ mapping.lookup k = some (.imm v)) →
      (DataWrapper.init mapping).2.lookup k = Option.none) ∧
    (∀ (m₁ m₂ : List (String × DWValue)) k,
      (m₁.map Prod.fst).Nodup → (m₂.map Prod.fst).Nodup →
      m₁.lookup k = m₂.lookup k →
      (DataWrapper.init m₁).1.lookup k = (DataWrapper.init m₂).1.lookup k ∧
      (DataWrapper.init m₁).2.lookup k = (DataWrapper.init m₂).2.lookup k) ∧
    (∀ (mapping : List (String × DWValue)) k, (mapping.map Prod.fst).Nodup →
      (DataWrapper.evalTrace mapping).count k =
        match mapping.lookup k with
        | some v => if v.isThunk then 1 else 0
        | Option.none => 0) := by
  have hval : ∀ (mapping : List (String × DWValue)) k,
      (DataWrapper.init mapping).1.lookup k =
        (mapping.lookup k).map DataWrapper.setItemValue := by
    intro mapping k
    exact lookup_map_value mapping DataWrapper.setItemValue k
  have herr : ∀ (mapping : List (String × DWValue)) k, (mapping.map Prod.fst).Nodup →
      (DataWrapper.init mapping).2.lookup k =
        (mapping.lookup k).bind DataWrapper.setItemError := by
    intro mapping k h
    exact lookup_filterMap_pair mapping DataWrapper.setItemError k h
  refine ⟨?_, ?_, ?_, ?_, ?_, ?_, ?_⟩
  · intro mapping k e h
    rw [hval, h]; rfl
  · intro mapping k e hnd h
    rw [herr mapping k hnd, h]; rfl
  · intro mapping k v h
    rw [hval, h]; rfl
  · intro mapping k v h
    rw [hval, h]; rfl
  · intro mapping k v hnd h
    rcases h with h | h <;> rw [herr mapping k hnd, h] <;> rfl
  · intro m₁ m₂ k h₁ h₂ heq
    constructor
    · rw [hval, hval, heq]
    · rw [herr m₁ k h₁, herr m₂ k h₂, heq]
  · intro mapping k hnd
    unfold DataWrapper.evalTrace
    have h := count_filterMap_key mapping DWValue.isThunk k hnd
    rw [h]
    cases List.lookup k mapping <;> rfl

/-- Witness for C7 amended at a concrete mapping with one immediate field,
one successful thunk and one raising thunk. -/
theorem datawrapper_field_semantics_witness :
    (DataWrapper.init
        [("a", .imm (.int 1)), ("ok", .thunk (.ok (.str "v"))),
         ("b", .thunk (.error ⟨"ZeroDivisionError", "division by zero"⟩))]).1.lookup "b"
      = some PyVal.none ∧
    (DataWrapper.init
        [("a", .imm (.int 1)), ("ok", .thunk (.ok (.str "v"))),
         ("b", .thunk (.error ⟨"ZeroDivisionError", "division by zero"⟩))]).2.lookup "b"
      = some ⟨"ZeroDivisionError", "division by zero"⟩ ∧
    (DataWrapper.init
        [("a", .imm (.int 1)), ("ok", .thunk (.ok (.str "v"))),
         ("b", .thunk (.error ⟨"ZeroDivisionError", "division by zero"⟩))]).1.lookup "ok"
      = some (.str "v") ∧
    (DataWrapper.evalTrace
        [("a", .imm (.int 1)), ("ok", .thunk (.ok (.str "v"))),
         ("b", .thunk (.error ⟨"ZeroDivisionError", "division by zero"⟩))]).count "ok" = 1 := by
  refine ⟨datawrapper_field_semantics.1 _ "b" ⟨"ZeroDivisionError", "division by zero"⟩ (by decide),
    datawrapper_field_semantics.2.1 _ "b" ⟨"ZeroDivisionError", "division by zero"⟩
      (by decide) (by decide),
    datawrapper_field_semantics.2.2.1 _ "ok" (.str "v") (by decide), ?_⟩
  rw [datawrapper_field_semantics.2.2.2.2.2.2 _ "ok" (by decide)]
  decide

/-! ## Retry envelope lemmas -/

theorem retryFrom_calls_pos (cfg : RetryConfig) (client : Nat → FetchOutcome) :
    ∀ fuel n, 1 ≤ (retryFrom cfg client n fuel).calls := by
  intro fuel
  induction fuel with
  | zero =>
      intro n
      unfold retryFrom
      cases client n <;> dsimp only
      · exact Nat.le_refl 1
      · split_ifs <;> dsimp only <;> exact Nat.le_refl 1
  | succ fuel' ih =>
      intro n
      unfold retryFrom
      cases client n <;> dsimp only
      · exact Nat.le_refl 1
      · split_ifs <;> dsimp only <;> omega

theorem retryFrom_calls_stop (cfg : RetryConfig) (client : Nat → FetchOutcome)
    (fuel n : Nat) (h : cfg.max_attempts ≤ n) :
    (retryFrom cfg client n fuel).calls = 1 := by
  unfold retryFrom
  cases fuel <;> cases client n <;> dsimp only <;> split_ifs <;>
    first | rfl | omega

theorem retryFrom_calls_le (cfg : RetryConfig) (client : Nat → FetchOutcome) :
    ∀ fuel n, n ≤ cfg.max_attempts →
      (retryFrom cfg client n fuel).calls ≤ cfg.max_attempts - n + 1 := by
  intro fuel
  induction fuel with
  | zero =>
      intro n hn
      unfold retryFrom
      cases client n <;> dsimp only
      · omega
      · split_ifs <;> dsimp only <;> omega
  | succ fuel' ih =>
      intro n hn
      unfold retryFrom
      cases client n <;> dsimp only
      · omega
      · split_ifs with h1 h2
        · dsimp only; omega
        · dsimp only; omega
        · dsimp only
          have := ih (n + 1) (by omega)
          omega

theorem wrap_retry_calls_le (cfg : RetryConfig) (client : Nat → FetchOutcome) :
    (wrap_retry cfg client).calls ≤ max 1 cfg.max_attempts := by
  unfold wrap_retry
  rcases Nat.eq_zero_or_pos cfg.max_attempts with h0 | hpos
  · rw [retryFrom_calls_stop cfg client cfg.max_attempts 1 (by omega)]
    omega
  · have := retryFrom_calls_le cfg client cfg.max_attempts 1 hpos
    omega

theorem retryFrom_delays (cfg : RetryConfig) (client : Nat → FetchOutcome) :
    ∀ fuel n, (retryFrom cfg client n fuel).delays =
      (List.range ((retryFrom cfg client n fuel).calls - 1)).map fun i => waitExp cfg (n + i) := by
  intro fuel
  induction fuel with
  | zero =>
      intro n
      unfold retryFrom
      cases client n <;> simp only []
      · simp
      · split_ifs <;> simp
  | succ fuel' ih =>
      intro n
      unfold retryFrom
      cases client n <;> simp only []
      · simp
      · split_ifs <;> simp only []
        · simp
        · simp
        · have hpos := retryFrom_calls_pos cfg client fuel' (n + 1)
          rw [ih (n + 1)]
          have hc : (retryFrom cfg client (n + 1) fuel').calls + 1 - 1 =
              ((retryFrom cfg client (n + 1) fuel').calls - 1) + 1 := by omega
          rw [hc, List.range_succ_eq_map]
          simp only [List.map_cons, List.map_map]
          congr 1
          apply List.map_congr_left
          intro i _
          simp only [Function.comp_apply]
          congr 1
          omega

/-! ## Claim C3 -/

/-- Claim C3: for a retried request, the delay tenacity inserts before attempt
`n` (for every `n ≥ 2` that is actually reached) is
`min(wait_exp_max, wait_exp_mul * 2 ^ (n - 2))` clamped below by
`wait_exp_min`. -/
theorem retry_delay_formula (cfg : RetryConfig) (client : Nat → FetchOutcome) (n : Nat)
    (h2 : 2 ≤ n) (hle : n ≤ (wrap_retry cfg client).calls) :
    (wrap_retry cfg client).delays.get? (n - 2) =
      some (max cfg.wait_exp_min (min cfg.wait_exp_max (cfg.wait_exp_mul * 2 ^ (n - 2)))) := by
  unfold wrap_retry at *
  rw [retryFrom_delays cfg client cfg.max_attempts 1]
  rw [List.get?_map]
  rw [List.get?_range (by omega)]
  simp only [Option.map_some']
  congr 1
  unfold waitExp
  have h1 : 1 + (n - 2) - 1 = n - 2 := by omega
  rw [h1]
  rw [Nat.zero_max]
  rw [Nat.min_comm]

/-- Witness for C3: with the default multiplier/min/max and a client that
always fails retryably, the delay before attempt 2 is
`max(4, min(10, 1 * 2^0)) = 4`. -/
theorem retry_delay_formula_witness :
    (wrap_retry {} fun _ => .raise ⟨true, ⟨"RetryableException", "boom"⟩⟩).delays.get? 0 =
      some 4 := by
  have h := retry_delay_formula {} (fun _ => .raise ⟨true, ⟨"RetryableException", "boom"⟩⟩) 2
    (by omega) (by decide)
  rw [h]
  rfl

/-! ## Claim C4 -/

theorem retryFrom_all_retryable (cfg : RetryConfig) (client : Nat → FetchOutcome)
    (hall : ∀ i, ∃ e, client i = .raise e ∧ e.retryable = true) :
    ∀ fuel n, ∃ e, client (n + (retryFrom cfg client n fuel).calls - 1) = .raise e ∧
      (retryFrom cfg client n fuel).result = .raise e := by
  intro fuel
  induction fuel with
  | zero =>
      intro n
      obtain ⟨e, he, hr⟩ := hall n
      unfold retryFrom
      rw [he]
      dsimp only
      split_ifs <;> exact ⟨e, by simpa using he, rfl⟩
  | succ fuel' ih =>
      intro n
      obtain ⟨e, he, hr⟩ := hall n
      unfold retryFrom
      rw [he]
      dsimp only
      rw [if_neg (by simp [hr])]
      by_cases hmax : cfg.max_attempts ≤ n
      · rw [if_pos hmax]
        exact ⟨e, by simpa using he, rfl⟩
      · rw [if_neg hmax]
        dsimp only
        obtain ⟨e', he', hres⟩ := ih (n + 1)
        refine ⟨e', ?_, hres⟩
        have harith : n + ((retryFrom cfg client (n + 1) fuel').calls + 1) - 1 =
            n + 1 + (retryFrom cfg client (n + 1) fuel').calls - 1 := by omega
        rw [harith]
        exact he'

/-- Counterexample to C4: `max_attempts = 0` is a valid `RetryConfig`
value (the field is a non-negative int), yet tenacity always runs the
first attempt, so the client is invoked once — more than `max_attempts`
times. -/
theorem retry_attempts_counterexample :
    (wrap_retry { max_attempts := 0 }
        fun _ => .ok okResponse).calls = 1 ∧
    ¬((wrap_retry { max_attempts := 0 }
        fun _ => .ok okResponse).calls
      ≤ (RetryConfig.max_attempts { max_attempts := 0 })) := by
  refine ⟨by decide, by decide⟩

/-- Claim C4 amended: the retry envelope invokes the client at most
`max(1, max_attempts)` times (the first attempt always runs; for every
`max_attempts ≥ 1` the bound is `max_attempts` as claimed), and when every
attempt fails with a retryable error the exception of the last attempt is
itself re-raised to the caller. -/
theorem retry_envelope_bounds (cfg : RetryConfig) (client : Nat → FetchOutcome) :
    ((wrap_retry cfg client).calls ≤ max 1 cfg.max_attempts) ∧
    ((∀ i, ∃ e, client i = .raise e ∧ e.retryable = true) →
      ∃ e, client (wrap_retry cfg client).calls = .raise e ∧
        (wrap_retry cfg client).result = .raise e) := by
  constructor
  · exact wrap_retry_calls_le cfg client
  · intro hall
    obtain ⟨e, he, hres⟩ := retryFrom_all_retryable cfg client hall cfg.max_attempts 1
    refine ⟨e, ?_, hres⟩
    have hpos := retryFrom_calls_pos cfg client cfg.max_attempts 1
    have harith : 1 + (retryFrom cfg client 1 cfg.max_attempts).calls - 1 =
        (retryFrom cfg client 1 cfg.max_attempts).calls := by omega
    rw [harith] at he
    exact he

/-- Witness for C4 amended: with the default config and a client that
always fails retryably, at most three calls are made and the last
exception is re-raised. -/
theorem retry_envelope_bounds_witness :
    ((wrap_retry {} fun _ => .raise ⟨true, ⟨"RetryableException", "boom"⟩⟩).calls
      ≤ max 1 (3 : Nat)) ∧
    ∃ e, (fun _ : Nat => FetchOutcome.raise ⟨true, ⟨"RetryableException", "boom"⟩⟩)
        (wrap_retry {} fun _ => .raise ⟨true, ⟨"RetryableException", "boom"⟩⟩).calls = .raise e ∧
      (wrap_retry {} fun _ => .raise ⟨true, ⟨"RetryableException", "boom"⟩⟩).result = .raise e :=
  ⟨(retry_envelope_bounds {} _).1,
   (retry_envelope_bounds {} _).2 fun _ => ⟨⟨true, ⟨"RetryableException", "boom"⟩⟩, rfl, rfl⟩⟩

/-! ## Scheduler model lemmas -/

theorem not_inA_ready : ¬ inA .ready := by
  intro h; rcases h with h | h | h <;> exact TaskPhase.noConfusion h

theorem not_inA_skipped : ¬ inA .skipped := by
  intro h; rcases h with h | h | h <;> exact TaskPhase.noConfusion h

theorem not_inF_ready : ¬ inF .ready := by
  intro h; rcases h with h | h <;> exact TaskPhase.noConfusion h

theorem not_inF_admitted : ¬ inF .admitted := by
  intro h; rcases h with h | h <;> exact TaskPhase.noConfusion h

theorem inA_of_inF {p : TaskPhase} (h : inF p) : inA p :=
  h.elim (fun h1 => Or.inr (Or.inl h1)) fun h1 => Or.inr (Or.inr h1)

theorem filter_key_eq_nil (l : List (String × Nat)) (k : String)
    (h : k ∉ l.map Prod.fst) : (l.filter fun p => p.1 = k) = [] := by
  induction l with
  | nil => rfl
  | cons p rest ih =>
      simp only [List.map_cons, List.mem_cons, not_or] at h
      rw [List.filter_cons]
      have hpk : ¬(p.1 = k) := fun he => h.1 he.symm
      simp only [hpk]
      simp only [decide_eq_true_eq, if_neg hpk]
      exact ih h.2

theorem sum_filter_key_le (l : List (String × Nat)) (k : String) (B : Nat)
    (hnd : (l.map Prod.fst).Nodup) (hB : ∀ p ∈ l, p.2 ≤ B) :
    (((l.filter fun p => p.1 = k).map Prod.snd).sum) ≤ B := by
  induction l with
  | nil => exact Nat.zero_le B
  | cons p rest ih =>
      simp only [List.map_cons, List.nodup_cons] at hnd
      rw [List.filter_cons]
      by_cases hpk : p.1 = k
      · simp only [decide_eq_true_eq, if_pos hpk]
        rw [hpk] at hnd
        rw [filter_key_eq_nil rest k hnd.1]
        simp only [List.map_cons, List.map_nil, List.sum_cons, List.sum_nil]
        have := hB p (List.mem_cons_self p rest)
        omega
      · simp only [decide_eq_true_eq, if_neg hpk]
        exact ih hnd.2 fun q hq => hB q (List.mem_cons_of_mem p hq)

theorem schedInv_step (cfg : WorkerConfig) (tasks : Nat → WorkerTask)
    (hd : cfg.deduplication = true) (s : SchedState) (i : Nat)
    (h : SchedInv cfg tasks s) : SchedInv cfg tasks (schedStep cfg tasks s i) := by
  obtain ⟨hseen, huniq, hnodup, hwit, hcalls⟩ := h
  cases hphase : s.phase i with
  | ready =>
      by_cases hmem : (tasks i).key ∈ s.seen
      · have hstep : schedStep cfg tasks s i =
            { s with phase := fun j => if j = i then .skipped else s.phase j } := by
          simp [schedStep, hphase, hd, hmem]
        rw [hstep]
        refine ⟨?_, ?_, hnodup, ?_, hcalls⟩
        · intro j hj
          dsimp only at hj ⊢
          by_cases hji : j = i
          · rw [if_pos hji] at hj
            exact absurd hj not_inA_skipped
          · rw [if_neg hji] at hj
            exact hseen j hj
        · intro i' j' hne h1 h2
          dsimp only at h1 h2
          by_cases hi : i' = i
          · rw [if_pos hi] at h1
            exact absurd h1 not_inA_skipped
          · by_cases hj : j' = i
            · rw [if_pos hj] at h2
              exact absurd h2 not_inA_skipped
            · rw [if_neg hi] at h1
              rw [if_neg hj] at h2
              exact huniq i' j' hne h1 h2
        · intro k hk
          obtain ⟨i₀, hkey, hF⟩ := hwit k hk
          have hne : i₀ ≠ i := by
            intro he
            rw [he, hphase] at hF
            exact not_inF_ready hF
          refine ⟨i₀, hkey, ?_⟩
          dsimp only
          rw [if_neg hne]
          exact hF
      · have hstep : schedStep cfg tasks s i =
            { s with phase := fun j => if j = i then .admitted else s.phase j
                     seen := (tasks i).key :: s.seen } := by
          simp [schedStep, hphase, hd, hmem]
        rw [hstep]
        refine ⟨?_, ?_, hnodup, ?_, hcalls⟩
        · intro j hj
          dsimp only at hj ⊢
          by_cases hji : j = i
          · rw [hji]
            exact List.mem_cons_self _ _
          · rw [if_neg hji] at hj
            exact List.mem_cons_of_mem _ (hseen j hj)
        · intro i' j' hne h1 h2
          dsimp only at h1 h2
          by_cases hi : i' = i
          · rw [hi]
            by_cases hj : j' = i
            · exact absurd (hi.trans hj.symm) hne
            · rw [if_neg hj] at h2
              intro heq
              exact hmem (heq ▸ hseen j' h2)
          · rw [if_neg hi] at h1
            by_cases hj : j' = i
            · rw [hj]
              intro heq
              exact hmem (heq.symm ▸ hseen i' h1)
            · rw [if_neg hj] at h2
              exact huniq i' j' hne h1 h2
        · intro k hk
          obtain ⟨i₀, hkey, hF⟩ := hwit k hk
          have hne : i₀ ≠ i := by
            intro he
            rw [he, hphase] at hF
            exact not_inF_ready hF
          refine ⟨i₀, hkey, ?_⟩
          dsimp only
          rw [if_neg hne]
          exact hF
  | admitted =>
      have hstep : schedStep cfg tasks s i =
          { s with phase := fun j => if j = i then .fetching else s.phase j
                   fetchLog := s.fetchLog ++
                     [((tasks i).key, (wrap_retry cfg.retry (tasks i).client).calls)] } := by
        simp [schedStep, hphase]
      have hAi : inA (s.phase i) := by rw [hphase]; exact Or.inl rfl
      have hkeynotin : (tasks i).key ∉ s.fetchLog.map Prod.fst := by
        intro hk
        obtain ⟨i₀, hkey, hF⟩ := hwit _ hk
        have hne : i₀ ≠ i := by
          intro he
          rw [he, hphase] at hF
          exact not_inF_admitted hF
        exact huniq i₀ i hne (inA_of_inF hF) hAi hkey
      rw [hstep]
      refine ⟨?_, ?_, ?_, ?_, ?_⟩
      · intro j hj
        dsimp only at hj ⊢
        by_cases hji : j = i
        · rw [hji]
          exact hseen i hAi
        · rw [if_neg hji] at hj
          exact hseen j hj
      · intro i' j' hne h1 h2
        dsimp only at h1 h2
        by_cases hi : i' = i
        · rw [hi]
          by_cases hj : j' = i
          · exact absurd (hi.trans hj.symm) hne
          · rw [if_neg hj] at h2
            exact huniq i j' (fun he => hne (hi.trans he)) hAi h2
        · rw [if_neg hi] at h1
          by_cases hj : j' = i
          · rw [hj]
            exact huniq i' i (fun he => hne (he.trans hj.symm)) h1 hAi
          · rw [if_neg hj] at h2
            exact huniq i' j' hne h1 h2
      · dsimp only
        rw [List.map_append]
        rw [List.nodup_append]
        refine ⟨hnodup, List.nodup_singleton _, ?_⟩
        intro x hx
        simp only [List.map_cons, List.map_nil, List.mem_singleton]
        intro hxk
        exact hkeynotin (hxk ▸ hx)
      · intro k hk
        dsimp only at hk ⊢
        rw [List.map_append] at hk
        rcases List.mem_append.1 hk with hold | hnew
        · obtain ⟨i₀, hkey, hF⟩ := hwit k hold
          have hne : i₀ ≠ i := by
            intro he
            rw [he, hphase] at hF
            exact not_inF_admitted hF
          refine ⟨i₀, hkey, ?_⟩
          rw [if_neg hne]
          exact hF
        · simp only [List.map_cons, List.map_nil, List.mem_singleton] at hnew
          refine ⟨i, hnew.symm, ?_⟩
          rw [if_pos rfl]
          exact Or.inl rfl
      · intro p hp
        dsimp only at hp
        rcases List.mem_append.1 hp with hold | hnew
        · exact hcalls p hold
        · simp only [List.mem_singleton] at hnew
          exact ⟨i, hnew⟩
  | fetching =>
      have hstep : schedStep cfg tasks s i =
          { s with phase := fun j => if j = i then .done else s.phase j } := by
        simp [schedStep, hphase]
      have hAiff : ∀ j, inA (if j = i then TaskPhase.done else s.phase j) ↔ inA (s.phase j) := by
        intro j
        by_cases hji : j = i
        · rw [if_pos hji, hji, hphase]
          exact ⟨fun _ => Or.inr (Or.inl rfl), fun _ => Or.inr (Or.inr rfl)⟩
        · rw [if_neg hji]
      have hFiff : ∀ j, inF (if j = i then TaskPhase.done else s.phase j) ↔ inF (s.phase j) := by
        intro j
        by_cases hji : j = i
        · rw [if_pos hji, hji, hphase]
          exact ⟨fun _ => Or.inl rfl, fun _ => Or.inr rfl⟩
        · rw [if_neg hji]
      rw [hstep]
      refine ⟨?_, ?_, hnodup, ?_, hcalls⟩
      · intro j hj
        exact hseen j ((hAiff j).1 hj)
      · intro i' j' hne h1 h2
        exact huniq i' j' hne ((hAiff i').1 h1) ((hAiff j').1 h2)
      · intro k hk
        obtain ⟨i₀, hkey, hF⟩ := hwit k hk
        exact ⟨i₀, hkey, (hFiff i₀).2 hF⟩
  | done =>
      have hstep : schedStep cfg tasks s i = s := by simp [schedStep, hphase]
      rw [hstep]
      exact ⟨hseen, huniq, hnodup, hwit, hcalls⟩
  | skipped =>
      have hstep : schedStep cfg tasks s i = s := by simp [schedStep, hphase]
      rw [hstep]
      exact ⟨hseen, huniq, hnodup, hwit, hcalls⟩

theorem schedInv_init (cfg : WorkerConfig) (tasks : Nat → WorkerTask) :
    SchedInv cfg tasks (initState cfg) := by
  refine ⟨?_, ?_, ?_, ?_, ?_⟩
  · intro i hi
    exact absurd hi not_inA_ready
  · intro i j hne h1 _
    exact absurd h1 not_inA_ready
  · exact List.nodup_nil
  · intro k hk
    exact absurd hk (List.not_mem_nil k)
  · intro p hp
    exact absurd hp (List.not_mem_nil p)

theorem schedInv_run (cfg : WorkerConfig) (tasks : Nat → WorkerTask)
    (hd : cfg.deduplication = true) (sched : List Nat) :
    SchedInv cfg tasks (schedRun cfg tasks sched) := by
  unfold schedRun
  have hgen : ∀ s, SchedInv cfg tasks s →
      SchedInv cfg tasks (sched.foldl (schedStep cfg tasks) s) := by
    induction sched with
    | nil => intro s hs; exact hs
    | cons a rest ih =>
        intro s hs
        exact ih _ (schedInv_step cfg tasks hd s a hs)
  exact hgen _ (schedInv_init cfg tasks)

/-! ## Claim C1 -/

/-- Counterexample to C1: with deduplication enabled and a client whose
first attempt fails with a `RetryableException`, the retry envelope
invokes the client twice for the same `unique_key` in one run — "at most
once across the entire run" does not hold for client invocations. -/
theorem dedup_at_most_once_counterexample :
    totalClientCalls
        (schedRun {} (fun _ => taskOfRequest { url := "http://example.com/" } fun i =>
            if i ≤ 1 then .raise ⟨true, ⟨"RetryableException", "500"⟩⟩
            else .ok okResponse)
          [0, 0, 0])
        (Request.unique_key { url := "http://example.com/" }) = 2 ∧
    WorkerConfig.deduplication {} = true ∧ ¬(2 ≤ 1) := by
  refine ⟨by decide, rfl, by decide⟩

/-- Claim C1 amended: with deduplication enabled, the duplicate check and the
insertion into the seen set are one atomic step of the cooperative
scheduler (no await between them), so for every dedup key at most one task
ever reaches the fetch — the logged fetch keys are pairwise distinct under
any interleaving — and consequently the client is invoked at most
`max(1, retry.max_attempts)` times (not once) per key across the run. -/
theorem dedup_fetch_mutex (cfg : WorkerConfig) (tasks : Nat → WorkerTask)
    (sched : List Nat) (hd : cfg.deduplication = true) :
    ((schedRun cfg tasks sched).fetchLog.map Prod.fst).Nodup ∧
    ∀ k, totalClientCalls (schedRun cfg tasks sched) k ≤ max 1 cfg.retry.max_attempts := by
  obtain ⟨_, _, hnodup, _, hcalls⟩ := schedInv_run cfg tasks hd sched
  refine ⟨hnodup, ?_⟩
  intro k
  unfold totalClientCalls
  apply sum_filter_key_le _ k _ hnodup
  intro p hp
  obtain ⟨i, hpi⟩ := hcalls p hp
  rw [hpi]
  exact wrap_retry_calls_le cfg.retry (tasks i).client

/-- Witness for C1 amended: two concurrent tasks for the same request
interleaved check-to-check; only one reaches the fetch and the client runs
at most `max(1, 3)` times for the key. -/
theorem dedup_fetch_mutex_witness :
    (((schedRun {} (fun _ => taskOfRequest { url := "http://example.com/" } fun _ =>
          .ok okResponse)
        [0, 1, 0, 1, 0, 1]).fetchLog.map Prod.fst).Nodup) ∧
    ∀ k, totalClientCalls
        (schedRun {} (fun _ => taskOfRequest { url := "http://example.com/" } fun _ =>
          .ok okResponse)
        [0, 1, 0, 1, 0, 1]) k ≤ max 1 (WorkerConfig.retry {}).max_attempts :=
  dedup_fetch_mutex {} _ [0, 1, 0, 1, 0, 1] rfl

/-! ## Claim C2 -/

/-- Claim C2 is violated by the code: `DataWorker.fetch` acquires its semaphore
once around the whole scheduling loop, and the tasks it spawns never touch
it, so a single work item fanning out to four requests puts four fetches
in flight under `max_concurrency = 3` — while the semaphore still has free
slots.  The schedule below first admits all four tasks and then starts all
four fetches. -/
theorem semaphore_bound_violation :
    inFlight
        (schedRun { max_concurrency := 3 }
          (fun i => { key := toString i, client := fun _ => (.ok okResponse) })
          [0, 1, 2, 3, 0, 1, 2, 3]) 4 = 4 ∧
    WorkerConfig.max_concurrency { max_concurrency := 3 } = 3 ∧
    (schedRun { max_concurrency := 3 }
          (fun i => { key := toString i, client := fun _ => (.ok okResponse) })
          [0, 1, 2, 3, 0, 1, 2, 3]).semFree = 2 ∧
    ¬(inFlight
        (schedRun { max_concurrency := 3 }
          (fun i => { key := toString i, client := fun _ => (.ok okResponse) })
          [0, 1, 2, 3, 0, 1, 2, 3]) 4 ≤ 3) := by
  refine ⟨by decide, rfl, by decide, by decide⟩

end DataService
